import Mathlib

/-!
Shallow embedding of the vegetation-index processor.

Source files embedded here:
  * `src/indices/index_calculations.py` — `safe_divide` and the eight index
    formulas (`calculate_ndvi` .. `calculate_gci`).
  * `src/process_all_scenes.py` — `load_band`, `save_index`, `process_scene`,
    the band-file table, the index dispatch block, and the module-level batch
    driver with its summary write.

Numeric model: numpy float arrays are embedded as grids of exact rationals
extended with the IEEE special values `+inf`, `-inf`, `NaN`.  The special-value
arithmetic (`0/0 = NaN`, `x/0 = ±inf` for `x ≠ 0`, `inf - inf = NaN`,
`0 * inf = NaN`, NaN propagation) follows IEEE 754 as numpy implements it;
rounding of finite results and signed zero are not modelled (the properties at
issue concern special values and small exact inputs).  `np.errstate` only
suppresses warnings, so division is embedded as a total function.

The rational operations are written with `Rat.divInt` over numerator and
denominator so that every definition evaluates by `decide`; the lemmas
`finAdd_eq`, `finMul_eq`, `finNeg_eq` and `finDiv_eq` below prove them equal
to the field operations of `ℚ`.
-/

/-- Rational addition, written so it evaluates by `decide`. -/
def finAdd (a b : ℚ) : ℚ :=
  Rat.divInt (a.num * b.den + b.num * a.den) (a.den * b.den)

/-- Rational multiplication, written so it evaluates by `decide`. -/
def finMul (a b : ℚ) : ℚ := Rat.divInt (a.num * b.num) (a.den * b.den)

/-- Rational negation, written so it evaluates by `decide`. -/
def finNeg (a : ℚ) : ℚ := Rat.divInt (-a.num) a.den

/-- Rational division (with `finDiv a 0 = 0`, only ever used with a nonzero
denominator), written so it evaluates by `decide`. -/
def finDiv (a b : ℚ) : ℚ := Rat.divInt (a.num * b.den) (a.den * b.num)

/-- One cell of a numpy float array: a finite rational or an IEEE special
value. -/
inductive Val where
  | fin : ℚ → Val
  | pinf : Val
  | ninf : Val
  | nan : Val
deriving DecidableEq, Repr

/-- IEEE addition on cells. -/
def Val.add : Val → Val → Val
  | .nan, _ => .nan
  | _, .nan => .nan
  | .pinf, .ninf => .nan
  | .ninf, .pinf => .nan
  | .pinf, _ => .pinf
  | _, .pinf => .pinf
  | .ninf, _ => .ninf
  | _, .ninf => .ninf
  | .fin a, .fin b => .fin (finAdd a b)

/-- IEEE negation on cells. -/
def Val.neg : Val → Val
  | .nan => .nan
  | .pinf => .ninf
  | .ninf => .pinf
  | .fin a => .fin (finNeg a)

/-- IEEE subtraction on cells. -/
def Val.sub (a b : Val) : Val := Val.add a (Val.neg b)

/-- IEEE multiplication on cells (the zero and sign tests are on the
numerator, which determines them for a rational in lowest terms). -/
def Val.mul : Val → Val → Val
  | .nan, _ => .nan
  | _, .nan => .nan
  | .fin a, .fin b => .fin (finMul a b)
  | .fin a, .pinf => if a.num = 0 then .nan else if 0 < a.num then .pinf else .ninf
  | .fin a, .ninf => if a.num = 0 then .nan else if 0 < a.num then .ninf else .pinf
  | .pinf, .fin b => if b.num = 0 then .nan else if 0 < b.num then .pinf else .ninf
  | .ninf, .fin b => if b.num = 0 then .nan else if 0 < b.num then .ninf else .pinf
  | .pinf, .pinf => .pinf
  | .pinf, .ninf => .ninf
  | .ninf, .pinf => .ninf
  | .ninf, .ninf => .pinf

/-- IEEE division on cells: `0/0` is NaN, `x/0` for `x ≠ 0` is a signed
infinity (zero is unsigned in this model), division by an infinity gives 0. -/
def Val.div : Val → Val → Val
  | .nan, _ => .nan
  | _, .nan => .nan
  | .fin a, .fin b =>
      if b.num = 0 then
        (if a.num = 0 then .nan else if 0 < a.num then .pinf else .ninf)
      else .fin (finDiv a b)
  | .fin _, .pinf => .fin 0
  | .fin _, .ninf => .fin 0
  | .pinf, .fin b => if 0 ≤ b.num then .pinf else .ninf
  | .ninf, .fin b => if 0 ≤ b.num then .ninf else .pinf
  | .pinf, .pinf => .nan
  | .pinf, .ninf => .nan
  | .ninf, .pinf => .nan
  | .ninf, .ninf => .nan

/-- Embeds `np.isnan` on one cell. -/
def Val.isNaN : Val → Bool
  | .nan => true
  | _ => false

/-- A 2-D numpy array. -/
abbrev Grid := List (List Val)

/-- Elementwise binary operation on two grids (numpy broadcasting of two
equal-shape arrays). -/
def map2 (f : Val → Val → Val) (a b : Grid) : Grid :=
  List.zipWith (List.zipWith f) a b

/-- Elementwise unary operation on a grid. -/
def mapG (f : Val → Val) (g : Grid) : Grid := g.map (List.map f)

/-- Elementwise grid addition. -/
def gadd : Grid → Grid → Grid := map2 Val.add

/-- Elementwise grid subtraction. -/
def gsub : Grid → Grid → Grid := map2 Val.sub

/-- Grid plus broadcast scalar. -/
def addS (g : Grid) (s : Val) : Grid := mapG (fun v => Val.add v s) g

/-- Grid minus broadcast scalar. -/
def subS (g : Grid) (s : Val) : Grid := mapG (fun v => Val.sub v s) g

/-- Broadcast scalar times grid. -/
def mulSL (s : Val) (g : Grid) : Grid := mapG (fun v => Val.mul s v) g

/-- Grid times broadcast scalar. -/
def mulSR (g : Grid) (s : Val) : Grid := mapG (fun v => Val.mul v s) g

/-- Embeds `result[np.isnan(result)] = 0` applied to one cell. -/
def floorNaN (v : Val) : Val := if v.isNaN then Val.fin 0 else v

/-- Embeds `safe_divide` from `src/indices/index_calculations.py` lines 3-7:
elementwise division followed by replacement of every NaN cell by 0 (only
NaN cells — infinities produced by `x/0` with `x ≠ 0` are left in place). -/
def safe_divide (numerator denominator : Grid) : Grid :=
  mapG floorNaN (map2 Val.div numerator denominator)

/-- The rational one half, written so it evaluates by `decide`. -/
def rHalf : ℚ := Rat.divInt 1 2

/-- Embeds `calculate_ndvi` (line 9). -/
def calculate_ndvi (nir red : Grid) : Grid :=
  safe_divide (gsub nir red) (gadd nir red)

/-- Embeds `calculate_savi` (line 12); the Python default `L=0.5` is supplied
explicitly at call sites. -/
def calculate_savi (nir red : Grid) (L : Val) : Grid :=
  mulSR (safe_divide (gsub nir red) (addS (gadd nir red) L))
    (Val.add (Val.fin 1) L)

/-- Embeds `calculate_evi` (line 15); Python defaults `G=2.5, C1=6, C2=7.5, L=1`
supplied explicitly at call sites. -/
def calculate_evi (nir red blue : Grid) (G c1 c2 L : Val) : Grid :=
  mulSL G (safe_divide (gsub nir red)
    (addS (gsub (gadd nir (mulSL c1 red)) (mulSL c2 blue)) L))

/-- Embeds `calculate_arvi` (line 18). -/
def calculate_arvi (nir red blue : Grid) : Grid :=
  safe_divide (gsub nir (gsub red (mulSL (Val.fin 2) (gsub red blue))))
    (gadd nir (gsub red (mulSL (Val.fin 2) (gsub red blue))))

/-- Embeds `calculate_nbr` (line 22). -/
def calculate_nbr (nir swir2 : Grid) : Grid :=
  safe_divide (gsub nir swir2) (gadd nir swir2)

/-- Embeds `calculate_nbwi` (line 25). -/
def calculate_nbwi (green nir : Grid) : Grid :=
  safe_divide (gsub green nir) (gadd green nir)

/-- Embeds `calculate_ndbi` (line 28). -/
def calculate_ndbi (swir1 nir : Grid) : Grid :=
  safe_divide (gsub swir1 nir) (gadd swir1 nir)

/-- Embeds `calculate_gci` (line 31). -/
def calculate_gci (nir green : Grid) : Grid :=
  subS (safe_divide nir green) (Val.fin 1)


/-! ## Scene processing (`src/process_all_scenes.py`) -/

/-- The six band names of the `band_files` table (lines 50-57). -/
inductive Band where
  | B2 | B3 | B4 | B5 | B6 | B7
deriving DecidableEq, Repr, Fintype

/-- Iteration order of `band_files.items()` — insertion order B2..B7. -/
def bandOrder : List Band := [.B2, .B3, .B4, .B5, .B6, .B7]

/-- The eight index names (choices of `--indices`, line 25). -/
inductive IndexName where
  | NDVI | SAVI | EVI | ARVI | NBR | NBWI | NDBI | GCI
deriving DecidableEq, Repr, Fintype

/-- Order of the eight dispatch statements in `process_scene` (lines 101-116). -/
def indexOrder : List IndexName :=
  [.NDVI, .SAVI, .EVI, .ARVI, .NBR, .NBWI, .NDBI, .GCI]

/-- Georeferencing profile, kept opaque: `process_scene` only threads it
through to `save_index`, so it is modelled as a token. -/
abbrev Profile := Nat

/-- What the file system holds for one band of a scene: the file is missing,
or it exists but `rasterio.open`/`read` raises, or it loads as a grid with a
profile. -/
inductive BandFile where
  | missing
  | loadFails
  | loaded : Grid → Profile → BandFile
deriving DecidableEq

/-- Embeds `os.path.exists` for a band file (line 91). -/
def fileExists : BandFile → Bool
  | .missing => false
  | _ => true

/-- Embeds `load_band` (lines 59-65): returns the grid and profile on success and
`(None, None)` when the read raises (the exception is caught inside). -/
def load_band : BandFile → Option Grid × Option Profile
  | .loaded g p => (some g, some p)
  | _ => (none, none)

/-- The environment one scene runs against: its band files, whether each
index write succeeds, and the measured elapsed seconds (wall-clock time is
abstracted to a per-scene oracle, already rounded to two decimals). -/
structure SceneEnv where
  file : Band → BandFile
  persistOk : IndexName → Bool
  elapsed : ℚ

/-- The `bands` dict: `none` = key absent, `some none` = key present but
bound to Python `None`, `some (some g)` = key bound to a loaded grid. -/
abbrev Bands := Band → Option (Option Grid)

/-- One iteration of the load loop (lines 89-96): if the file exists,
`bands[band_key], profile = load_band(path)` — the profile variable is
overwritten even when the load failed; a missing file touches nothing. -/
def loadStep (env : SceneEnv) (st : Bands × Option Profile) (b : Band) :
    Bands × Option Profile :=
  if fileExists (env.file b) then
    ((fun b' => if b' = b then some (load_band (env.file b)).1 else st.1 b'),
      (load_band (env.file b)).2)
  else st

/-- The whole load loop, starting from the empty dict and `profile = None`
(lines 85-96). -/
def loadPhase (env : SceneEnv) : Bands × Option Profile :=
  bandOrder.foldl (loadStep env) ((fun _ => none), none)

/-- The band-name sets of the eight `issubset` guards (lines 101-115);
note GCI is guarded on `{B3, B7}`, as written on line 115. -/
def requiredBands : IndexName → List Band
  | .NDVI => [.B4, .B5]
  | .SAVI => [.B4, .B5]
  | .EVI => [.B2, .B4, .B5]
  | .ARVI => [.B3, .B4, .B5]
  | .NBR => [.B5, .B7]
  | .NBWI => [.B3, .B5]
  | .NDBI => [.B5, .B6]
  | .GCI => [.B3, .B7]

/-- Embeds the guard test `{...}.issubset(bands)`: key membership only — a key bound to `None`
still counts as present. -/
def feasible (bs : Bands) (i : IndexName) : Bool :=
  (requiredBands i).all (fun b => (bs b).isSome)

/-- Embeds `bands[b]` followed by its use as a numpy operand: a missing key raises
`KeyError`, a `None` value raises `TypeError` in the band arithmetic; both
surface as an exception, modelled as `none`. -/
def bandVal (bs : Bands) (b : Band) : Option Grid :=
  match bs b with
  | some (some g) => some g
  | _ => none

/-- The computation part of each dispatch statement (lines 102-116), with the
band arguments exactly as written in the source — in particular GCI is
`calculate_gci(bands["B7"], bands["B3"])` (line 116).  `none` models the
exception raised when a required band is absent or `None`. -/
def computeIndex (bs : Bands) : IndexName → Option Grid
  | .NDVI =>
    match bandVal bs .B5, bandVal bs .B4 with
    | some nir, some red => some (calculate_ndvi nir red)
    | _, _ => none
  | .SAVI =>
    match bandVal bs .B5, bandVal bs .B4 with
    | some nir, some red => some (calculate_savi nir red (Val.fin rHalf))
    | _, _ => none
  | .EVI =>
    match bandVal bs .B5, bandVal bs .B4, bandVal bs .B2 with
    | some nir, some red, some blue =>
      some (calculate_evi nir red blue (Val.fin (Rat.divInt 5 2)) (Val.fin 6)
        (Val.fin (Rat.divInt 15 2)) (Val.fin 1))
    | _, _, _ => none
  | .ARVI =>
    match bandVal bs .B5, bandVal bs .B4, bandVal bs .B3 with
    | some nir, some red, some blue => some (calculate_arvi nir red blue)
    | _, _, _ => none
  | .NBR =>
    match bandVal bs .B5, bandVal bs .B7 with
    | some nir, some swir2 => some (calculate_nbr nir swir2)
    | _, _ => none
  | .NBWI =>
    match bandVal bs .B3, bandVal bs .B5 with
    | some green, some nir => some (calculate_nbwi green nir)
    | _, _ => none
  | .NDBI =>
    match bandVal bs .B6, bandVal bs .B5 with
    | some swir1, some nir => some (calculate_ndbi swir1 nir)
    | _, _ => none
  | .GCI =>
    match bandVal bs .B7, bandVal bs .B3 with
    | some nir, some green => some (calculate_gci nir green)
    | _, _ => none

/-- Embeds `save_index` (lines 67-78): with `profile = None`, `profile.update(...)`
raises and the internal handler returns `False`; otherwise the write outcome
is given by the environment's persistence oracle.  The grid argument is the
array the call would write. -/
def save_index (pOk : IndexName → Bool) (g : Grid) (i : IndexName)
    (prof : Option Profile) : Bool :=
  match prof, g with
  | none, _ => false
  | some _, _ => pOk i

/-- One `save_index` call as observed behaviour: what index, what array,
with which profile, and whether the write succeeded. -/
structure SaveEvent where
  idx : IndexName
  grid : Grid
  profile : Option Profile
  ok : Bool
deriving DecidableEq

/-- The dispatch block (lines 100-118): the eight guarded statements run in
order inside one `try`; a raised computation aborts the remaining indices of
the scene (the handler at line 117 only logs), while a failed save is caught
inside `save_index` and processing continues. -/
def runIndices (pOk : IndexName → Bool) (bs : Bands) (prof : Option Profile)
    (sel : List IndexName) : List IndexName → List SaveEvent
  | [] => []
  | i :: rest =>
    if feasible bs i && sel.contains i then
      match computeIndex bs i with
      | none => []
      | some g =>
        ⟨i, g, prof, save_index pOk g i prof⟩ ::
          runIndices pOk bs prof sel rest
    else runIndices pOk bs prof sel rest

/-- The `results` dict of one scene: scene name, one boolean per attempted
index in attempt order, and `time_sec`. -/
structure SceneResult where
  scene : String
  entries : List (IndexName × Bool)
  time_sec : ℚ
deriving DecidableEq

/-- Embeds `process_scene` (lines 80-123): load loop, dispatch block, elapsed time.
Returns the `results` record and, for the statements of the claims, the list
of `save_index` calls it made. -/
def process_scene (name : String) (env : SceneEnv) (sel : List IndexName) :
    SceneResult × List SaveEvent :=
  let st := loadPhase env
  let events := runIndices env.persistOk st.1 st.2 sel indexOrder
  (⟨name, events.map (fun e => (e.idx, e.ok)), env.elapsed⟩, events)

/-- Summary rows produced by the sequential branch of the batch driver
(lines 145-147): one `process_scene` call per scene, in input order. -/
def runSequentialRows (scenes : List (String × SceneEnv))
    (sel : List IndexName) : List SceneResult :=
  scenes.map (fun s => (process_scene s.1 s.2 sel).1)

/-- Summary rows produced by the thread-pool branch (lines 148-160):
`as_completed` yields the same per-scene results in some completion order,
so the branch is modelled by a permutation of the scene list.  No scene task
touches cross-scene mutable state (each owns its `bands`, `results` and
`profile`), which is what justifies per-scene determinism. -/
def runConcurrentRows (completion : List (String × SceneEnv))
    (sel : List IndexName) : List SceneResult :=
  completion.map (fun s => (process_scene s.1 s.2 sel).1)

/-- Observable batch events: a scene task delivering its row, and the single
`save_summary` call (line 162). -/
inductive BatchEvent where
  | sceneDone : SceneResult → BatchEvent
  | summaryWritten : List SceneResult → BatchEvent
deriving DecidableEq

/-- The rows the batch collects: the sequential branch when exactly one scene
is listed (line 145), otherwise the pool branch in completion order. -/
def batchRows (scenes completion : List (String × SceneEnv))
    (sel : List IndexName) : List SceneResult :=
  if scenes.length = 1 then runSequentialRows scenes sel
  else runConcurrentRows completion sel

/-- The module-level batch run (lines 135-163) as an event trace: every
scene's row is delivered, then `save_summary` writes all of them once. -/
def runBatchTrace (scenes completion : List (String × SceneEnv))
    (sel : List IndexName) : List BatchEvent :=
  ((batchRows scenes completion sel).map BatchEvent.sceneDone) ++
    [BatchEvent.summaryWritten (batchRows scenes completion sel)]

/-- Recognizes the summary-write event. -/
def isSummaryWrite : BatchEvent → Bool
  | .summaryWritten _ => true
  | _ => false

/-! ## Concrete scene environments for counterexamples and witnesses -/

/-- A scene whose GCI-relevant bands are all loadable: B3 = [[2]],
B5 = [[6]], B7 = [[10]], everything persists. -/
def envGci : SceneEnv where
  file := fun b =>
    match b with
    | .B3 => .loaded [[Val.fin 2]] 0
    | .B5 => .loaded [[Val.fin 6]] 0
    | .B7 => .loaded [[Val.fin 10]] 0
    | _ => .missing
  persistOk := fun _ => true
  elapsed := 0

/-- Like `envGci` but with the B7 file absent. -/
def envGciNoB7 : SceneEnv where
  file := fun b =>
    match b with
    | .B3 => .loaded [[Val.fin 2]] 0
    | .B5 => .loaded [[Val.fin 6]] 0
    | _ => .missing
  persistOk := fun _ => true
  elapsed := 0

/-- A scene where the B2 file exists but its read raises. -/
def envBadB2 : SceneEnv where
  file := fun b =>
    match b with
    | .B2 => .loadFails
    | _ => .missing
  persistOk := fun _ => true
  elapsed := 0

/-- A scene where B4 exists but fails to load while B3, B5, B7 load fine. -/
def envBadB4 : SceneEnv where
  file := fun b =>
    match b with
    | .B3 => .loaded [[Val.fin 1]] 0
    | .B4 => .loadFails
    | .B5 => .loaded [[Val.fin 2]] 0
    | .B7 => .loaded [[Val.fin 3]] 0
    | _ => .missing
  persistOk := fun _ => true
  elapsed := 0

/-- A scene with B4, B5 loaded and every write failing. -/
def envNoPersist : SceneEnv where
  file := fun b =>
    match b with
    | .B4 => .loaded [[Val.fin 1]] 0
    | .B5 => .loaded [[Val.fin 2]] 0
    | _ => .missing
  persistOk := fun _ => false
  elapsed := 0

/-- A scene with B2 missing and B4, B5 loaded (EVI infeasible, NDVI/SAVI
feasible). -/
def envNoB2 : SceneEnv where
  file := fun b =>
    match b with
    | .B4 => .loaded [[Val.fin 1]] 0
    | .B5 => .loaded [[Val.fin 3]] 0
    | _ => .missing
  persistOk := fun _ => true
  elapsed := 0

/-- A scene where NDVI's bands B4, B5 carry profile 1 while a later band,
B7, carries profile 2. -/
def envLateProfile : SceneEnv where
  file := fun b =>
    match b with
    | .B4 => .loaded [[Val.fin 1]] 1
    | .B5 => .loaded [[Val.fin 3]] 1
    | .B7 => .loaded [[Val.fin 5]] 2
    | _ => .missing
  persistOk := fun _ => true
  elapsed := 0

/-- A scene that fails entirely: every band file exists and every read
raises. -/
def envAllFail : SceneEnv where
  file := fun _ => .loadFails
  persistOk := fun _ => false
  elapsed := 0


/-! ## Derived notions used by the claim statements -/

/-- Row/column dimensions of a grid. -/
def shape (g : Grid) : List Nat := g.map List.length

/-- The cell of `g` at row `i`, column `j`, if in bounds. -/
def entry (g : Grid) (i j : Nat) : Option Val :=
  (g.get? i).bind (fun r => r.get? j)

/-- Whether no cell of the grid is NaN. -/
def noNaN (g : Grid) : Bool :=
  g.all (fun r => r.all (fun v => !v.isNaN))

/-- Claim-shaped characterization of one `bands` slot after the load loop:
missing file — key absent; file present but load failed — key bound to
`None`; load succeeded — key bound to the grid. -/
def bandEntry (env : SceneEnv) (b : Band) : Option (Option Grid) :=
  match env.file b with
  | .missing => none
  | .loadFails => some none
  | .loaded g _ => some (some g)

/-- Claim-shaped characterization of the shared `profile` variable after the
load loop: the value `load_band` returned for the last band file present in
the order B2..B7 (`None` when that load failed, or when no band file
exists). -/
def lastLoadedProfile (env : SceneEnv) : Option Profile :=
  (bandOrder.reverse.find? (fun b => fileExists (env.file b))).bind
    (fun b => (load_band (env.file b)).2)

/-- Replace a scene environment's persistence oracle. -/
def setPersist (env : SceneEnv) (p : IndexName → Bool) : SceneEnv :=
  { env with persistOk := p }

/-- Sample numerator grid for the safe-division witness. -/
def gridA : Grid := [[Val.fin 0, Val.fin 4, Val.fin 1]]

/-- Sample denominator grid for the safe-division witness. -/
def gridB : Grid := [[Val.fin 0, Val.fin 2, Val.fin 0]]

/-- A two-scene batch in which every scene fails entirely. -/
def scenesAllFail : List (String × SceneEnv) :=
  [("a", envAllFail), ("b", envAllFail)]

/-- First scene of the scheduler-equivalence witness. -/
def sceneA : String × SceneEnv := ("a", envNoB2)

/-- Second scene of the scheduler-equivalence witness. -/
def sceneB : String × SceneEnv := ("b", envGci)

/-! ## Grid lemmas -/

theorem den_cast_ne_zero (a : ℚ) : ((a.den : ℚ)) ≠ 0 :=
  Nat.cast_ne_zero.mpr a.den_nz

theorem num_cast_eq (a : ℚ) : ((a.num : ℚ)) = a * a.den := by
  have h := Rat.num_div_den a
  rw [div_eq_iff (den_cast_ne_zero a)] at h
  exact h

theorem finAdd_eq (a b : ℚ) : finAdd a b = a + b := by
  rw [finAdd, Rat.divInt_eq_div]
  push_cast
  rw [div_eq_iff (mul_ne_zero (den_cast_ne_zero a) (den_cast_ne_zero b)),
    num_cast_eq a, num_cast_eq b]
  ring

theorem finMul_eq (a b : ℚ) : finMul a b = a * b := by
  rw [finMul, Rat.divInt_eq_div]
  push_cast
  rw [div_eq_iff (mul_ne_zero (den_cast_ne_zero a) (den_cast_ne_zero b)),
    num_cast_eq a, num_cast_eq b]
  ring

theorem finNeg_eq (a : ℚ) : finNeg a = -a := by
  rw [finNeg, Rat.divInt_eq_div]
  push_cast
  rw [div_eq_iff (den_cast_ne_zero a), num_cast_eq a]
  ring

theorem finDiv_eq (a b : ℚ) : finDiv a b = a / b := by
  by_cases h0 : b = 0
  · subst h0
    simp [finDiv, Rat.divInt_eq_div]
  · have hbn : ((b.num : ℚ)) ≠ 0 := by
      exact_mod_cast Rat.num_ne_zero.mpr h0
    rw [finDiv, Rat.divInt_eq_div]
    push_cast
    rw [div_eq_div_iff (mul_ne_zero (den_cast_ne_zero a) hbn) h0,
      num_cast_eq a, num_cast_eq b]
    ring

theorem entry_mapG (f : Val → Val) (g : Grid) (i j : Nat) :
    entry (mapG f g) i j = (entry g i j).map f := by
  unfold entry mapG
  rw [List.get?_map]
  cases g.get? i with
  | none => rfl
  | some r => simp [List.get?_map]

theorem entry_map2 (f : Val → Val → Val) (a b : Grid) (i j : Nat) :
    entry (map2 f a b) i j =
      (entry a i j).bind (fun x => (entry b i j).map (fun y => f x y)) := by
  unfold entry map2
  rw [List.get?_zipWith']
  cases a.get? i with
  | none => rfl
  | some ra =>
    cases b.get? i with
    | none => cases ra.get? j <;> simp
    | some rb =>
      simp only [Option.map_some', Option.bind_some, Option.some_bind]
      rw [List.get?_zipWith']
      cases ra.get? j <;> cases rb.get? j <;> simp

theorem shape_mapG (f : Val → Val) (g : Grid) : shape (mapG f g) = shape g := by
  simp [shape, mapG, List.map_map, Function.comp]

theorem shape_map2 (f : Val → Val → Val) (a b : Grid)
    (h : shape a = shape b) : shape (map2 f a b) = shape a := by
  induction a generalizing b with
  | nil => simp [map2]
  | cons ra as ih =>
    cases b with
    | nil => simp [shape] at h
    | cons rb bs =>
      simp only [shape, List.map_cons, List.cons.injEq] at h
      simp only [map2, List.zipWith_cons_cons, shape, List.map_cons,
        List.cons.injEq]
      constructor
      · rw [List.length_zipWith, h.1, Nat.min_self]
      · have := ih bs (by simpa [shape] using h.2)
        simpa [map2, shape] using this

/-! ## NaN-freedom lemmas -/

theorem floorNaN_isNaN (v : Val) : (floorNaN v).isNaN = false := by
  cases v <;> simp [floorNaN, Val.isNaN]

theorem noNaN_iff (g : Grid) :
    noNaN g = true ↔ ∀ r ∈ g, ∀ v ∈ r, v.isNaN = false := by
  simp [noNaN, List.all_eq_true]

theorem noNaN_safe_divide (a b : Grid) : noNaN (safe_divide a b) = true := by
  rw [noNaN_iff]
  intro r hr v hv
  rcases List.mem_map.mp hr with ⟨r0, _, rfl⟩
  rcases List.mem_map.mp hv with ⟨w, _, rfl⟩
  exact floorNaN_isNaN w

theorem noNaN_mapG_of (f : Val → Val)
    (hf : ∀ v, v.isNaN = false → (f v).isNaN = false) (g : Grid)
    (hg : noNaN g = true) : noNaN (mapG f g) = true := by
  rw [noNaN_iff] at hg ⊢
  intro r hr v hv
  rcases List.mem_map.mp hr with ⟨r0, hr0, rfl⟩
  rcases List.mem_map.mp hv with ⟨w, hw, rfl⟩
  exact hf w (hg r0 hr0 w hw)

theorem isNaN_sub_fin (c : ℚ) (v : Val) (h : v.isNaN = false) :
    (Val.sub v (Val.fin c)).isNaN = false := by
  cases v <;> simp_all [Val.sub, Val.add, Val.neg, Val.isNaN]

theorem isNaN_mulL (c : ℚ) (hc : ¬ c.num = 0) (v : Val)
    (h : v.isNaN = false) : (Val.mul (Val.fin c) v).isNaN = false := by
  cases v with
  | fin b => simp [Val.mul, Val.isNaN]
  | pinf => simp only [Val.mul, if_neg hc]; split <;> simp [Val.isNaN]
  | ninf => simp only [Val.mul, if_neg hc]; split <;> simp [Val.isNaN]
  | nan => simp [Val.isNaN] at h

theorem isNaN_mulR (c : ℚ) (hc : ¬ c.num = 0) (v : Val)
    (h : v.isNaN = false) : (Val.mul v (Val.fin c)).isNaN = false := by
  cases v with
  | fin b => simp [Val.mul, Val.isNaN]
  | pinf => simp only [Val.mul, if_neg hc]; split <;> simp [Val.isNaN]
  | ninf => simp only [Val.mul, if_neg hc]; split <;> simp [Val.isNaN]
  | nan => simp [Val.isNaN] at h

/-! ## Claim theorems for the index library -/

/-- C1 counterexample: at the single position of `[[1]] / [[0]]` the
denominator is 0, yet `safe_divide` returns `+inf` there, not 0 — only NaN
cells (the 0/0 case) are replaced by 0. -/
theorem C1_counterexample :
    safe_divide [[Val.fin 1]] [[Val.fin 0]] ≠ [[Val.fin 0]] ∧
    safe_divide [[Val.fin 1]] [[Val.fin 0]] = [[Val.pinf]] := by decide

/-- C1 (amended): for equal-shape grids, `safe_divide` preserves the shape
and, cellwise, returns exactly 0 at 0/0 positions, the exact quotient where
the denominator is a nonzero rational, and a signed infinity — not 0 — where
the denominator is 0 and the numerator a nonzero rational.  It is a total
function, so no warning or exception reaches the caller. -/
theorem C1_safe_divide_amended (a b : Grid) (hs : shape a = shape b) :
    shape (safe_divide a b) = shape a ∧
    ∀ i j x y, entry a i j = some x → entry b i j = some y →
      ((x = Val.fin 0 ∧ y = Val.fin 0) →
        entry (safe_divide a b) i j = some (Val.fin 0)) ∧
      (∀ q r : ℚ, x = Val.fin q → y = Val.fin r → r ≠ 0 →
        entry (safe_divide a b) i j = some (Val.fin (q / r))) ∧
      (∀ q : ℚ, x = Val.fin q → y = Val.fin 0 → q ≠ 0 →
        entry (safe_divide a b) i j =
          some (if 0 < q then Val.pinf else Val.ninf)) := by
  constructor
  · rw [safe_divide, shape_mapG, shape_map2 _ _ _ hs]
  · intro i j x y hx hy
    have he : entry (safe_divide a b) i j =
        some (floorNaN (Val.div x y)) := by
      rw [safe_divide, entry_mapG, entry_map2, hx, hy]
      rfl
    refine ⟨?_, ?_, ?_⟩
    · rintro ⟨rfl, rfl⟩
      rw [he]
      simp [Val.div, floorNaN, Val.isNaN]
    · rintro q r rfl rfl hr
      rw [he]
      simp [Val.div, floorNaN, Val.isNaN, finDiv_eq, hr]
    · rintro q rfl rfl hq
      rw [he]
      by_cases hpos : 0 < q
      · simp [Val.div, floorNaN, Val.isNaN, hq, hpos]
      · simp [Val.div, floorNaN, Val.isNaN, hq, hpos]

/-- C1 witness: a concrete application of the amended safe-division theorem
at `gridA / gridB`, with its shape hypothesis and the 0/0 cell discharged. -/
theorem C1_witness :
    shape (safe_divide gridA gridB) = shape gridA ∧
    entry (safe_divide gridA gridB) 0 0 = some (Val.fin 0) := by
  refine ⟨(C1_safe_divide_amended gridA gridB (by decide)).1, ?_⟩
  exact ((C1_safe_divide_amended gridA gridB (by decide)).2 0 0
    (Val.fin 0) (Val.fin 0) (by decide) (by decide)).1 ⟨rfl, rfl⟩

/-- C4 counterexample: for GREEN = [[0.0]], NIR = [[0.5]] the code's GCI is
not [[-1.0]]. -/
theorem C4_counterexample :
    calculate_gci [[Val.fin rHalf]] [[Val.fin 0]] ≠ [[Val.fin (finNeg 1)]] := by
  decide

/-- C4 (amended): for GREEN = [[0.0]], NIR = [[0.5]] the code's GCI is
[[+inf]]: `0.5 / 0` is `+inf`, which `safe_divide` does not floor (only NaN
is floored), and `inf − 1 = inf`. -/
theorem C4_gci_zero_green_amended :
    calculate_gci [[Val.fin rHalf]] [[Val.fin 0]] = [[Val.pinf]] := by decide

/-- C10: `safe_divide` never returns a NaN cell (every NaN in the quotient,
from 0/0 or NaN operands, is replaced by 0), hence none of the eight index
functions — at the constants used by `process_scene` — returns a grid with a
NaN cell; infinities, however, can appear (last conjunct). -/
theorem C10_no_nan :
    (∀ a b, noNaN (safe_divide a b) = true) ∧
    (∀ nir red, noNaN (calculate_ndvi nir red) = true) ∧
    (∀ nir red, noNaN (calculate_savi nir red (Val.fin rHalf)) = true) ∧
    (∀ nir red blue, noNaN (calculate_evi nir red blue
      (Val.fin (Rat.divInt 5 2)) (Val.fin 6) (Val.fin (Rat.divInt 15 2))
      (Val.fin 1)) = true) ∧
    (∀ nir red blue, noNaN (calculate_arvi nir red blue) = true) ∧
    (∀ nir swir2, noNaN (calculate_nbr nir swir2) = true) ∧
    (∀ green nir, noNaN (calculate_nbwi green nir) = true) ∧
    (∀ swir1 nir, noNaN (calculate_ndbi swir1 nir) = true) ∧
    (∀ nir green, noNaN (calculate_gci nir green) = true) ∧
    safe_divide [[Val.fin 1]] [[Val.fin 0]] = [[Val.pinf]] := by
  refine ⟨noNaN_safe_divide, fun nir red => noNaN_safe_divide _ _,
    ?_, ?_, fun a b c => noNaN_safe_divide _ _,
    fun a b => noNaN_safe_divide _ _, fun a b => noNaN_safe_divide _ _,
    fun a b => noNaN_safe_divide _ _, ?_, by decide⟩
  · intro nir red
    exact noNaN_mapG_of (fun v => Val.mul v (Val.fin (finAdd 1 rHalf)))
      (fun v hv => isNaN_mulR (finAdd 1 rHalf) (by decide) v hv) _
      (noNaN_safe_divide _ _)
  · intro nir red blue
    exact noNaN_mapG_of (fun v => Val.mul (Val.fin (Rat.divInt 5 2)) v)
      (fun v hv => isNaN_mulL (Rat.divInt 5 2) (by decide) v hv) _
      (noNaN_safe_divide _ _)
  · intro nir green
    exact noNaN_mapG_of (fun v => Val.sub v (Val.fin 1))
      (fun v hv => isNaN_sub_fin 1 v hv) _ (noNaN_safe_divide _ _)

/-! ## Load-loop lemmas -/

theorem loadStep_fst_other (env : SceneEnv) (st : Bands × Option Profile)
    (b b' : Band) (h : b' ≠ b) : (loadStep env st b).1 b' = st.1 b' := by
  unfold loadStep
  split
  · simp [h]
  · rfl

theorem loadFoldl_fst_not_mem (env : SceneEnv) (l : List Band)
    (st : Bands × Option Profile) (b : Band) (hb : b ∉ l) :
    (l.foldl (loadStep env) st).1 b = st.1 b := by
  induction l generalizing st with
  | nil => rfl
  | cons x xs ih =>
    have hbx : b ≠ x := fun h => hb (h ▸ List.mem_cons_self x xs)
    have hbxs : b ∉ xs := fun h => hb (List.mem_cons_of_mem _ h)
    rw [List.foldl_cons, ih _ hbxs, loadStep_fst_other env st x b hbx]

theorem loadFoldl_fst_mem (env : SceneEnv) (l : List Band)
    (st : Bands × Option Profile) (b : Band) (hnd : l.Nodup) (hb : b ∈ l) :
    (l.foldl (loadStep env) st).1 b =
      if fileExists (env.file b) then bandEntry env b else st.1 b := by
  induction l generalizing st with
  | nil => cases hb
  | cons x xs ih =>
    rcases List.mem_cons.mp hb with rfl | hmem
    · have hnotin : b ∉ xs := (List.nodup_cons.mp hnd).1
      rw [List.foldl_cons, loadFoldl_fst_not_mem env xs _ b hnotin]
      unfold loadStep
      cases hf : env.file b with
      | missing => simp [fileExists, hf, bandEntry]
      | loadFails => simp [fileExists, hf, bandEntry, load_band]
      | loaded g p => simp [fileExists, hf, bandEntry, load_band]
    · have hbx : b ≠ x := fun h =>
        (List.nodup_cons.mp hnd).1 (h ▸ hmem)
      rw [List.foldl_cons, ih _ (List.nodup_cons.mp hnd).2 hmem,
        loadStep_fst_other env st x b hbx]

theorem loadPhase_bands (env : SceneEnv) (b : Band) :
    (loadPhase env).1 b = bandEntry env b := by
  have hb : b ∈ bandOrder := by cases b <;> decide
  have hnd : bandOrder.Nodup := by decide
  rw [loadPhase, loadFoldl_fst_mem env bandOrder _ b hnd hb]
  cases hf : env.file b <;> simp [fileExists, hf, bandEntry]

theorem loadFoldl_snd (env : SceneEnv) (l : List Band)
    (st : Bands × Option Profile) :
    (l.foldl (loadStep env) st).2 =
      match l.reverse.find? (fun b => fileExists (env.file b)) with
      | some b => (load_band (env.file b)).2
      | none => st.2 := by
  induction l generalizing st with
  | nil => rfl
  | cons x xs ih =>
    rw [List.foldl_cons, ih, List.reverse_cons, List.find?_append]
    cases hfind : xs.reverse.find? (fun b => fileExists (env.file b)) with
    | some b => simp
    | none =>
      simp only [Option.none_or]
      by_cases hx : fileExists (env.file x) = true
      · unfold loadStep
        rw [if_pos hx]
        simp [List.find?, hx]
      · have hx' : fileExists (env.file x) = false := by
          revert hx
          cases fileExists (env.file x) <;> simp
        unfold loadStep
        rw [if_neg hx]
        simp [List.find?, hx']

theorem loadPhase_profile (env : SceneEnv) :
    (loadPhase env).2 = lastLoadedProfile env := by
  rw [loadPhase, loadFoldl_snd, lastLoadedProfile]
  cases bandOrder.reverse.find? (fun b => fileExists (env.file b)) <;> rfl

/-! ## Claim theorems for the load phase -/

/-- C3 counterexample: in `envBadB2` the B2 file exists but its read raises;
after the load phase the `bands` dict nevertheless has the key B2, bound to
`None` — a placeholder entry the claim says cannot exist. -/
theorem C3_counterexample :
    (loadPhase envBadB2).1 Band.B2 = some none ∧
    (loadPhase envBadB2).1 Band.B2 ≠ none := by decide

/-- C3 (amended): after the load phase, a band whose file is missing is
absent from `bands`; a band whose file exists but whose load failed is
present and bound to `None`; a successfully loaded band is bound to its
grid.  Key presence therefore implies only that the file existed, not that
the load succeeded. -/
theorem C3_band_set_amended (env : SceneEnv) (b : Band) :
    (loadPhase env).1 b = bandEntry env b :=
  loadPhase_bands env b

/-! ## Dispatch-block lemmas -/

theorem process_scene_events (n : String) (env : SceneEnv)
    (sel : List IndexName) :
    (process_scene n env sel).2 =
      runIndices env.persistOk (loadPhase env).1 (loadPhase env).2 sel
        indexOrder := rfl

theorem process_scene_entries (n : String) (env : SceneEnv)
    (sel : List IndexName) :
    (process_scene n env sel).1.entries =
      (process_scene n env sel).2.map (fun e => (e.idx, e.ok)) := rfl

theorem loadPhase_setPersist (env : SceneEnv) (p : IndexName → Bool) :
    loadPhase (setPersist env p) = loadPhase env := rfl

theorem runIndices_profile (pOk : IndexName → Bool) (bs : Bands)
    (prof : Option Profile) (sel : List IndexName) (l : List IndexName) :
    ∀ e ∈ runIndices pOk bs prof sel l, e.profile = prof := by
  induction l with
  | nil => intro e he; cases he
  | cons i rest ih =>
    intro e he
    by_cases hg : (feasible bs i && sel.contains i) = true
    · simp only [runIndices, if_pos hg] at he
      cases hc : computeIndex bs i with
      | none => rw [hc] at he; cases he
      | some g =>
        rw [hc] at he
        rcases List.mem_cons.mp he with rfl | hmem
        · rfl
        · exact ih e hmem
    · simp only [runIndices, if_neg hg] at he
      exact ih e he

theorem runIndices_ok (pOk : IndexName → Bool) (bs : Bands)
    (prof : Option Profile) (sel : List IndexName) (l : List IndexName) :
    ∀ e ∈ runIndices pOk bs prof sel l,
      e.ok = save_index pOk e.grid e.idx prof := by
  induction l with
  | nil => intro e he; cases he
  | cons i rest ih =>
    intro e he
    by_cases hg : (feasible bs i && sel.contains i) = true
    · simp only [runIndices, if_pos hg] at he
      cases hc : computeIndex bs i with
      | none => rw [hc] at he; cases he
      | some g =>
        rw [hc] at he
        rcases List.mem_cons.mp he with rfl | hmem
        · rfl
        · exact ih e hmem
    · simp only [runIndices, if_neg hg] at he
      exact ih e he

theorem runIndices_persist_indep (p1 p2 : IndexName → Bool) (bs : Bands)
    (prof : Option Profile) (sel : List IndexName) (l : List IndexName) :
    (runIndices p1 bs prof sel l).map (fun e => (e.idx, e.grid)) =
      (runIndices p2 bs prof sel l).map (fun e => (e.idx, e.grid)) := by
  induction l with
  | nil => rfl
  | cons i rest ih =>
    by_cases hg : (feasible bs i && sel.contains i) = true
    · simp only [runIndices, if_pos hg]
      cases hc : computeIndex bs i with
      | none => rfl
      | some g => simp only [List.map_cons]; rw [ih]
    · simp only [runIndices, if_neg hg]
      exact ih

theorem runIndices_filter (pOk : IndexName → Bool) (bs : Bands)
    (prof : Option Profile) (sel : List IndexName) (l : List IndexName)
    (hok : ∀ i ∈ l, (feasible bs i && sel.contains i) = true →
      (computeIndex bs i).isSome = true) :
    (runIndices pOk bs prof sel l).map (fun e => e.idx) =
      l.filter (fun i => feasible bs i && sel.contains i) := by
  induction l with
  | nil => rfl
  | cons i rest ih =>
    by_cases hg : (feasible bs i && sel.contains i) = true
    · have hs := hok i (List.mem_cons_self i rest) hg
      obtain ⟨g, hgc⟩ := Option.isSome_iff_exists.mp hs
      simp only [runIndices, if_pos hg, hgc, List.map_cons,
        List.filter_cons, hg, if_true]
      exact congrArg (List.cons i)
        (ih (fun j hj hgj => hok j (List.mem_cons_of_mem _ hj) hgj))
    · simp only [runIndices, if_neg hg, List.filter_cons]
      exact ih (fun j hj hgj => hok j (List.mem_cons_of_mem _ hj) hgj)

theorem computeIndex_isSome (bs : Bands) (i : IndexName)
    (h : ∀ b ∈ requiredBands i, ∃ g, bs b = some (some g)) :
    (computeIndex bs i).isSome = true := by
  cases i with
  | NDVI =>
    obtain ⟨g5, h5⟩ := h .B5 (by decide)
    obtain ⟨g4, h4⟩ := h .B4 (by decide)
    simp [computeIndex, bandVal, h5, h4]
  | SAVI =>
    obtain ⟨g5, h5⟩ := h .B5 (by decide)
    obtain ⟨g4, h4⟩ := h .B4 (by decide)
    simp [computeIndex, bandVal, h5, h4]
  | EVI =>
    obtain ⟨g5, h5⟩ := h .B5 (by decide)
    obtain ⟨g4, h4⟩ := h .B4 (by decide)
    obtain ⟨g2, h2⟩ := h .B2 (by decide)
    simp [computeIndex, bandVal, h5, h4, h2]
  | ARVI =>
    obtain ⟨g5, h5⟩ := h .B5 (by decide)
    obtain ⟨g4, h4⟩ := h .B4 (by decide)
    obtain ⟨g3, h3⟩ := h .B3 (by decide)
    simp [computeIndex, bandVal, h5, h4, h3]
  | NBR =>
    obtain ⟨g5, h5⟩ := h .B5 (by decide)
    obtain ⟨g7, h7⟩ := h .B7 (by decide)
    simp [computeIndex, bandVal, h5, h7]
  | NBWI =>
    obtain ⟨g3, h3⟩ := h .B3 (by decide)
    obtain ⟨g5, h5⟩ := h .B5 (by decide)
    simp [computeIndex, bandVal, h3, h5]
  | NDBI =>
    obtain ⟨g6, h6⟩ := h .B6 (by decide)
    obtain ⟨g5, h5⟩ := h .B5 (by decide)
    simp [computeIndex, bandVal, h6, h5]
  | GCI =>
    obtain ⟨g7, h7⟩ := h .B7 (by decide)
    obtain ⟨g3, h3⟩ := h .B3 (by decide)
    simp [computeIndex, bandVal, h7, h3]

theorem contains_iff_mem {α : Type} [DecidableEq α] (l : List α) (a : α) :
    l.contains a = true ↔ a ∈ l := by
  rw [List.contains_iff_exists_mem_beq]
  constructor
  · rintro ⟨b, hb, hab⟩
    rwa [(beq_iff_eq).mp hab]
  · intro ha
    exact ⟨a, ha, beq_iff_eq.mpr rfl⟩

/-! ## Claim theorems for the dispatch block -/

/-- C9: the shared `profile` variable ends the load loop holding the value
returned for the last band file present in the order B2..B7 (`None` if that
load failed), every `save_index` call of the scene is made with exactly that
profile, and — as the concrete scene `envLateProfile` shows — it need not be
the profile of any band the index uses: NDVI reads B4/B5 (profile 1) but is
written with B7's profile 2. -/
theorem C9_shared_profile (n : String) (env : SceneEnv)
    (sel : List IndexName) :
    (loadPhase env).2 = lastLoadedProfile env ∧
    ((process_scene n env sel).2.all
      (fun e => e.profile == (loadPhase env).2)) = true ∧
    ((process_scene "s" envLateProfile [IndexName.NDVI]).2.map
      (fun e => e.profile) = [some 2]) ∧
    (load_band (envLateProfile.file Band.B4)).2 = some 1 ∧
    (load_band (envLateProfile.file Band.B5)).2 = some 1 := by
  refine ⟨loadPhase_profile env, ?_, by decide, by decide, by decide⟩
  rw [List.all_eq_true]
  intro e he
  exact beq_iff_eq.mpr
    (runIndices_profile env.persistOk (loadPhase env).1 (loadPhase env).2
      sel indexOrder e he)

/-- C5 counterexample: in `envBadB4` the bands B3, B5, B7 all load and GCI is
selected, so by the claim GCI must be attempted; but B4's failed load left a
`None` placeholder that passes NDVI's key-membership guard, NDVI's
computation raises, and the whole dispatch block aborts — no index of the
scene is attempted at all. -/
theorem C5_counterexample :
    feasible (loadPhase envBadB4).1 IndexName.GCI = true ∧
    IndexName.GCI ∈ ([IndexName.NDVI, IndexName.GCI] : List IndexName) ∧
    (process_scene "s" envBadB4 [IndexName.NDVI, IndexName.GCI]).2 = [] := by
  decide

/-- C5 (amended): provided every existing band file loads successfully (no
`None` placeholder in `bands`), a scene with the B2 file missing attempts no
EVI computation or persistence and its result record has no EVI entry, and
in general an index is attempted — a `save_index` call made and an entry
recorded — exactly when it is selected and all its required band names are
keys of `bands`.  With a failed load the guard still passes, the computation
raises, and every later index of the scene is silently skipped. -/
theorem C5_feasible_dispatch (n : String) (env : SceneEnv)
    (sel : List IndexName)
    (hnf : ∀ b, env.file b ≠ BandFile.loadFails) :
    (env.file Band.B2 = BandFile.missing →
      (∀ e ∈ (process_scene n env sel).2, e.idx ≠ IndexName.EVI) ∧
      (∀ v, (IndexName.EVI, v) ∉ (process_scene n env sel).1.entries)) ∧
    (∀ i, (∃ e ∈ (process_scene n env sel).2, e.idx = i) ↔
      (i ∈ sel ∧ feasible (loadPhase env).1 i = true)) := by
  have hnp : ∀ b, (loadPhase env).1 b = none ∨
      ∃ g, (loadPhase env).1 b = some (some g) := by
    intro b
    rw [loadPhase_bands]
    unfold bandEntry
    cases hf : env.file b with
    | missing => exact Or.inl rfl
    | loadFails => exact absurd hf (hnf b)
    | loaded g p => exact Or.inr ⟨g, rfl⟩
  have hok : ∀ i ∈ indexOrder,
      (feasible (loadPhase env).1 i && sel.contains i) = true →
      (computeIndex (loadPhase env).1 i).isSome = true := by
    intro i _ hg
    apply computeIndex_isSome
    intro b hb
    rw [Bool.and_eq_true] at hg
    have hfeas := hg.1
    rw [feasible, List.all_eq_true] at hfeas
    have hsome := hfeas b hb
    rcases hnp b with hn | ⟨g, hg'⟩
    · rw [hn] at hsome; cases hsome
    · exact ⟨g, hg'⟩
  have hmap : ((process_scene n env sel).2).map (fun e => e.idx) =
      indexOrder.filter
        (fun i => feasible (loadPhase env).1 i && sel.contains i) := by
    rw [process_scene_events]
    exact runIndices_filter env.persistOk _ _ sel indexOrder hok
  have hiff : ∀ i, (∃ e ∈ (process_scene n env sel).2, e.idx = i) ↔
      (i ∈ sel ∧ feasible (loadPhase env).1 i = true) := by
    intro i
    constructor
    · rintro ⟨e, he, rfl⟩
      have hm : e.idx ∈ ((process_scene n env sel).2).map (fun e => e.idx) :=
        List.mem_map_of_mem _ he
      rw [hmap] at hm
      have hfc := (List.mem_filter.mp hm).2
      rw [Bool.and_eq_true] at hfc
      exact ⟨(contains_iff_mem sel e.idx).mp hfc.2, hfc.1⟩
    · rintro ⟨hs, hf⟩
      have hg : (feasible (loadPhase env).1 i && sel.contains i) = true := by
        rw [Bool.and_eq_true]
        exact ⟨hf, (contains_iff_mem sel i).mpr hs⟩
      have hi : i ∈ indexOrder := by cases i <;> decide
      have hm : i ∈ indexOrder.filter
          (fun i => feasible (loadPhase env).1 i && sel.contains i) :=
        List.mem_filter.mpr ⟨hi, hg⟩
      rw [← hmap] at hm
      rcases List.mem_map.mp hm with ⟨e, he, hei⟩
      exact ⟨e, he, hei⟩
  refine ⟨?_, hiff⟩
  intro hB2
  have hfe : feasible (loadPhase env).1 IndexName.EVI = false := by
    have hb2 : (loadPhase env).1 Band.B2 = none := by
      rw [loadPhase_bands]
      unfold bandEntry
      rw [hB2]
    simp [feasible, requiredBands, hb2]
  have hnoEVI : ∀ e ∈ (process_scene n env sel).2, e.idx ≠ IndexName.EVI := by
    intro e he hEVI
    have := (hiff IndexName.EVI).mp ⟨e, he, hEVI⟩
    rw [hfe] at this
    cases this.2
  refine ⟨hnoEVI, ?_⟩
  intro v hv
  rw [process_scene_entries] at hv
  rcases List.mem_map.mp hv with ⟨e, he, hpair⟩
  exact hnoEVI e he (congrArg Prod.fst hpair)

/-- C5 witness: a concrete application of the amended dispatch theorem — in
`envNoB2` (all loads succeed, B2 missing) NDVI is selected and feasible, so
an NDVI attempt exists. -/
theorem C5_witness :
    ∃ e ∈ (process_scene "s" envNoB2 [IndexName.NDVI]).2,
      e.idx = IndexName.NDVI :=
  ((C5_feasible_dispatch "s" envNoB2 [IndexName.NDVI] (by decide)).2
    IndexName.NDVI).mpr ⟨by decide, by decide⟩

/-- C6: when the write of an attempted index fails, the failure stays local:
the scene's record shows `false` for that index, and which indices are
attempted — and the arrays computed for them — do not depend on persistence
outcomes at all, so the remaining indices still run. -/
theorem C6_persist_failure (n : String) (env : SceneEnv)
    (sel : List IndexName) (i : IndexName)
    (hfail : env.persistOk i = false)
    (hatt : ∃ e ∈ (process_scene n env sel).2, e.idx = i) :
    (i, false) ∈ (process_scene n env sel).1.entries ∧
    ∀ p, (process_scene n (setPersist env p) sel).2.map
        (fun e => (e.idx, e.grid)) =
      (process_scene n env sel).2.map (fun e => (e.idx, e.grid)) := by
  obtain ⟨e, he, hei⟩ := hatt
  constructor
  · have hok : e.ok = save_index env.persistOk e.grid e.idx (loadPhase env).2 :=
      runIndices_ok env.persistOk (loadPhase env).1 (loadPhase env).2 sel
        indexOrder e he
    have hfalse : e.ok = false := by
      rw [hok, hei]
      cases (loadPhase env).2 <;> simp [save_index, hfail]
    have hm : (e.idx, e.ok) ∈ (process_scene n env sel).1.entries := by
      rw [process_scene_entries]
      exact List.mem_map_of_mem _ he
    rw [hei, hfalse] at hm
    exact hm
  · intro p
    have h1 : (process_scene n (setPersist env p) sel).2 =
        runIndices p (loadPhase env).1 (loadPhase env).2 sel indexOrder := by
      rw [process_scene_events, loadPhase_setPersist]
      rfl
    rw [h1, process_scene_events]
    exact runIndices_persist_indep p env.persistOk _ _ sel indexOrder

/-- C6 witness: in `envNoPersist` every write fails; applying the
persistence-failure theorem to the attempted NDVI yields its `false`
entry. -/
theorem C6_witness :
    (IndexName.NDVI, false) ∈ (process_scene "s" envNoPersist
      [IndexName.NDVI, IndexName.SAVI]).1.entries :=
  (C6_persist_failure "s" envNoPersist [IndexName.NDVI, IndexName.SAVI]
    IndexName.NDVI rfl (by decide)).1

/-! ## Claim theorems for GCI wiring and the batch driver -/

/-- C2: evaluation of the code at the failing input.  In `envGci`
(B3 = [[2]], B5 = [[6]], B7 = [[10]]) the scene computes GCI from
`bands["B7"]` over `bands["B3"]`, producing [[10/2 − 1]] = [[4]]; the
spec formula `safe_divide(NIR=B5, GREEN=B3) − 1` yields [[6/2 − 1]] = [[2]],
a different grid.  Moreover in `envGciNoB7` — B3 and B5 both loaded, GCI
selected — GCI is not attempted at all, because the guard on line 115 tests
`{B3, B7}` rather than `{B3, B5}`. -/
theorem C2_gci_divergence :
    ((process_scene "s" envGci [IndexName.GCI]).2.map
      (fun e => (e.idx, e.grid)) = [(IndexName.GCI, [[Val.fin 4]])]) ∧
    calculate_gci [[Val.fin 6]] [[Val.fin 2]] = [[Val.fin 2]] ∧
    ([[Val.fin 4]] : Grid) ≠ [[Val.fin 2]] ∧
    ((loadPhase envGciNoB7).1 Band.B3).isSome = true ∧
    ((loadPhase envGciNoB7).1 Band.B5).isSome = true ∧
    (process_scene "s" envGciNoB7 [IndexName.GCI]).2 = [] := by decide

/-- C7: for any scene list and any completion order of the pool, the batch
trace contains exactly one summary-write event, it is the final event (hence
after every scene event), and the summary holds one row per scene — in
particular the batch terminates and writes its summary even when every scene
fails entirely. -/
theorem C7_summary_once (scenes completion : List (String × SceneEnv))
    (sel : List IndexName) (hperm : completion.Perm scenes) :
    ((runBatchTrace scenes completion sel).countP isSummaryWrite = 1) ∧
    ((runBatchTrace scenes completion sel).getLast? =
      some (BatchEvent.summaryWritten (batchRows scenes completion sel))) ∧
    ((batchRows scenes completion sel).length = scenes.length) := by
  refine ⟨?_, ?_, ?_⟩
  · rw [runBatchTrace, List.countP_append]
    have h0 : ∀ rows : List SceneResult,
        (rows.map BatchEvent.sceneDone).countP isSummaryWrite = 0 := by
      intro rows
      induction rows with
      | nil => rfl
      | cons r rs ih => simp [List.countP_cons, isSummaryWrite, ih]
    rw [h0]
    simp [List.countP_cons, isSummaryWrite]
  · rw [runBatchTrace]
    exact List.getLast?_concat _
  · rw [batchRows]
    split
    · rw [runSequentialRows, List.length_map]
    · rw [runConcurrentRows, List.length_map]
      exact hperm.length_eq

/-- C7 witness: the theorem applied to a two-scene batch in which every band
read raises and every write fails, with the identity completion order. -/
theorem C7_witness :
    ((runBatchTrace scenesAllFail scenesAllFail []).countP isSummaryWrite
      = 1) ∧
    ((runBatchTrace scenesAllFail scenesAllFail []).getLast? =
      some (BatchEvent.summaryWritten (batchRows scenesAllFail scenesAllFail
        []))) ∧
    ((batchRows scenesAllFail scenesAllFail []).length =
      scenesAllFail.length) :=
  C7_summary_once scenesAllFail scenesAllFail [] (List.Perm.refl _)

/-- C8: whatever order the pool completes the scenes in, the multiset of
result rows equals the multiset produced by processing the same scenes
sequentially with the same selected indices — only row order can differ. -/
theorem C8_scheduler_refinement (scenes completion : List (String × SceneEnv))
    (sel : List IndexName) (hperm : completion.Perm scenes) :
    Multiset.ofList (runConcurrentRows completion sel) =
      Multiset.ofList (runSequentialRows scenes sel) :=
  Multiset.coe_eq_coe.mpr (hperm.map _)

/-- C8 witness: the theorem applied to the two concrete scenes `sceneA`,
`sceneB` with the pool finishing them in reverse order. -/
theorem C8_witness :
    Multiset.ofList (runConcurrentRows [sceneB, sceneA] [IndexName.NDVI]) =
      Multiset.ofList (runSequentialRows [sceneA, sceneB]
        [IndexName.NDVI]) :=
  C8_scheduler_refinement [sceneA, sceneB] [sceneB, sceneA] [IndexName.NDVI]
    (List.Perm.swap sceneA sceneB [])
